import Mathlib

/-!
Shallow embedding of the DOD-ChatBot backend (src/backend/main.py):
the JSON repair parser `extract_json_from_gemini_response`, the page
chunker `process_ocr_results_for_embedding`, the LaTeX normalizer
`fix_latex_with_gemini`, and the orchestrator `process_pdf_task`.

Python strings are modelled as `List Char`; the Gemini LLM and the time
source are modelled as oracle functions; wall-clock instants are rational
numbers; every Python exception path is modelled as an `Except` value.
-/

abbrev Str := List Char

/-- ASCII part of the character class matched by Python regex \s. -/
def isPySpace (c : Char) : Bool :=
  (c == ' ') || (c == '\t') || (c == '\n') || (c == '\r') || (c == '\x0b') || (c == '\x0c')

/-- Whitespace skipped by Python json.loads (space, tab, LF, CR). -/
def isJsonWs (c : Char) : Bool :=
  (c == ' ') || (c == '\t') || (c == '\n') || (c == '\r')

def skipJsonWs (cs : Str) : Str := cs.dropWhile isJsonWs

/-- Python str.strip over the ASCII whitespace set. -/
def pyStrip (cs : Str) : Str :=
  ((cs.dropWhile isPySpace).reverse.dropWhile isPySpace).reverse

/-- Truthiness of a Python string-or-None value: None and the empty string are falsy. -/
def pyTruthy : Option Str → Bool
  | some (_ :: _) => true
  | _ => false

/-- Python `a or b` on string-or-None values: the first truthy operand, else the last. -/
def pyOr (a b : Option Str) : Option Str := if pyTruthy a then a else b

/-- Python `pat in s` substring test. -/
def containsSubstr (pat : Str) : Str → Bool
  | [] => pat.isEmpty
  | c :: rest => pat.isPrefixOf (c :: rest) || containsSubstr pat rest

/-- JSON values as decoded by Python json.loads.  Numbers keep their source
lexeme (the claims under study never inspect numeric values). -/
inductive Json where
  | null
  | bool (b : Bool)
  | num (lexeme : Str)
  | str (s : Str)
  | arr (elems : List Json)
  | obj (entries : List (Str × Json))

/-- Python dict insertion: an existing key keeps its position and gets the new
value, a fresh key is appended at the end. -/
def dictSet : List (Str × Json) → Str → Json → List (Str × Json)
  | [], k, v => [(k, v)]
  | (k0, v0) :: rest, k, v =>
    if k0 = k then (k0, v) :: rest else (k0, v0) :: dictSet rest k v

/-- Python dict lookup (keys are unique by construction). -/
def dictGet : List (Str × Json) → Str → Option Json
  | [], _ => none
  | (k0, v0) :: rest, k => if k0 = k then some v0 else dictGet rest k

/-- Python `d.get(k)` on a JSON value: only dicts support it. -/
def jsonGet : Json → Str → Option Json
  | Json.obj kvs, k => dictGet kvs k
  | _, _ => none

def jnum (n : Nat) : Json := Json.num ((Nat.repr n).data)

/-! ### A model of Python json.loads -/

def msgUnterminated : Str := ("Unterminated string starting at").data
def msgInvalidEscape : Str := ("Invalid escape").data
def msgInvalidUnicode : Str := ("Invalid uXXXX escape").data
def msgControlChar : Str := ("Invalid control character").data
def msgExpectingValue : Str := ("Expecting value").data
def msgPropertyName : Str := ("Expecting property name enclosed in double quotes").data
def msgColon : Str := ("Expecting colon delimiter").data
def msgComma : Str := ("Expecting comma delimiter").data
def msgExtraData : Str := ("Extra data").data

def hexDigit (c : Char) : Option Nat :=
  if '0' ≤ c ∧ c ≤ '9' then some (c.toNat - '0'.toNat)
  else if 'a' ≤ c ∧ c ≤ 'f' then some (c.toNat - 'a'.toNat + 10)
  else if 'A' ≤ c ∧ c ≤ 'F' then some (c.toNat - 'A'.toNat + 10)
  else none

def hex4 (a b c d : Char) : Option Nat :=
  match hexDigit a, hexDigit b, hexDigit c, hexDigit d with
  | some x, some y, some z, some w => some (((x * 16 + y) * 16 + z) * 16 + w)
  | _, _, _, _ => none

/-- The two-character escapes accepted inside JSON strings. -/
def escMap (c : Char) : Option Char :=
  if c = '"' then some '"'
  else if c = '\\' then some '\\'
  else if c = '/' then some '/'
  else if c = 'b' then some '\x08'
  else if c = 'f' then some '\x0c'
  else if c = 'n' then some '\n'
  else if c = 'r' then some '\r'
  else if c = 't' then some '\t'
  else none

/-- Body of a JSON string after the opening quote: returns the decoded
characters and the remaining input after the closing quote.  Surrogate
pairs written as two uXXXX escapes are combined as json.loads does.
The fuel is always called with at least length + 1, which suffices since
every step consumes at least one character. -/
def parseStringBody : Nat → Str → Except Str (Str × Str)
  | 0, _ => .error msgUnterminated
  | _ + 1, [] => .error msgUnterminated
  | _ + 1, '"' :: rest => .ok ([], rest)
  | fuel + 1, '\\' :: 'u' :: a :: b :: c :: d :: rest =>
    match hex4 a b c d with
    | none => .error msgInvalidUnicode
    | some n =>
      if 0xD800 ≤ n ∧ n ≤ 0xDBFF then
        match rest with
        | '\\' :: 'u' :: a2 :: b2 :: c2 :: d2 :: rest2 =>
          match hex4 a2 b2 c2 d2 with
          | some m =>
            if 0xDC00 ≤ m ∧ m ≤ 0xDFFF then
              match parseStringBody fuel rest2 with
              | .ok (s, r) =>
                .ok (Char.ofNat (0x10000 + (n - 0xD800) * 0x400 + (m - 0xDC00)) :: s, r)
              | .error e => .error e
            else
              match parseStringBody fuel rest with
              | .ok (s, r) => .ok (Char.ofNat n :: s, r)
              | .error e => .error e
          | none =>
            match parseStringBody fuel rest with
            | .ok (s, r) => .ok (Char.ofNat n :: s, r)
            | .error e => .error e
        | _ =>
          match parseStringBody fuel rest with
          | .ok (s, r) => .ok (Char.ofNat n :: s, r)
          | .error e => .error e
      else
        match parseStringBody fuel rest with
        | .ok (s, r) => .ok (Char.ofNat n :: s, r)
        | .error e => .error e
  | fuel + 1, '\\' :: c :: rest =>
    match escMap c with
    | some ec =>
      match parseStringBody fuel rest with
      | .ok (s, r) => .ok (ec :: s, r)
      | .error e => .error e
    | none => .error msgInvalidEscape
  | fuel + 1, c :: rest =>
    if c.toNat < 0x20 then .error msgControlChar
    else
      match parseStringBody fuel rest with
      | .ok (s, r) => .ok (c :: s, r)
      | .error e => .error e

/-- Fraction and exponent parts of a number lexeme, mirroring the maximal
match of the json module NUMBER_RE regex. -/
def afterIntPart (intp : Str) (rest : Str) : Str × Str :=
  let fr :=
    match rest with
    | '.' :: r2 =>
      let ds := r2.takeWhile Char.isDigit
      if ds.isEmpty then ([], rest) else ('.' :: ds, r2.dropWhile Char.isDigit)
    | _ => ([], rest)
  let ex :=
    match fr.2 with
    | e :: r3 =>
      if e = 'e' ∨ e = 'E' then
        match r3 with
        | sgn :: r4 =>
          if sgn = '+' ∨ sgn = '-' then
            let ds := r4.takeWhile Char.isDigit
            if ds.isEmpty then ([], fr.2) else (e :: sgn :: ds, r4.dropWhile Char.isDigit)
          else
            let ds := r3.takeWhile Char.isDigit
            if ds.isEmpty then ([], fr.2) else (e :: ds, r3.dropWhile Char.isDigit)
        | [] => ([], fr.2)
      else ([], fr.2)
    | [] => ([], fr.2)
  (intp ++ fr.1 ++ ex.1, ex.2)

/-- Unsigned part of the NUMBER_RE regex: 0 or [1-9][0-9]* with optional
fraction and exponent. -/
def parseUNumber : Str → Option (Str × Str)
  | '0' :: r => some (afterIntPart ['0'] r)
  | c :: r =>
    if c.isDigit then
      some (afterIntPart (c :: r.takeWhile Char.isDigit) (r.dropWhile Char.isDigit))
    else none
  | [] => none

/-- Maximal number lexeme at the head of the input, if any. -/
def parseNumber : Str → Option (Str × Str)
  | '-' :: cs => (parseUNumber cs).map (fun p => ('-' :: p.1, p.2))
  | cs => parseUNumber cs

mutual

/-- One JSON value at the head of the input (whitespace already skipped). -/
def parseValue : Nat → Str → Except Str (Json × Str)
  | 0, _ => .error msgExpectingValue
  | fuel + 1, cs =>
    match cs with
    | [] => .error msgExpectingValue
    | '"' :: rest =>
      match parseStringBody (rest.length + 1) rest with
      | .ok (s, r) => .ok (Json.str s, r)
      | .error e => .error e
    | '{' :: rest =>
      match skipJsonWs rest with
      | '}' :: r2 => .ok (Json.obj [], r2)
      | r2 => parseMembers fuel r2 []
    | '[' :: rest =>
      match skipJsonWs rest with
      | ']' :: r2 => .ok (Json.arr [], r2)
      | r2 => parseElems fuel r2 []
    | cs2 =>
      if ("null").data.isPrefixOf cs2 then .ok (Json.null, cs2.drop 4)
      else if ("true").data.isPrefixOf cs2 then .ok (Json.bool true, cs2.drop 4)
      else if ("false").data.isPrefixOf cs2 then .ok (Json.bool false, cs2.drop 5)
      else
        match parseNumber cs2 with
        | some (lex, rest) => .ok (Json.num lex, rest)
        | none =>
          if ("NaN").data.isPrefixOf cs2 then .ok (Json.num (("NaN").data), cs2.drop 3)
          else if ("Infinity").data.isPrefixOf cs2 then
            .ok (Json.num (("Infinity").data), cs2.drop 8)
          else if ("-Infinity").data.isPrefixOf cs2 then
            .ok (Json.num (("-Infinity").data), cs2.drop 9)
          else .error msgExpectingValue

/-- Members of an object after the opening brace (input at a key). -/
def parseMembers : Nat → Str → List (Str × Json) → Except Str (Json × Str)
  | 0, _, _ => .error msgPropertyName
  | fuel + 1, cs, acc =>
    match cs with
    | '"' :: rest =>
      match parseStringBody (rest.length + 1) rest with
      | .error e => .error e
      | .ok (key, rest1) =>
        match skipJsonWs rest1 with
        | ':' :: rest3 =>
          match parseValue fuel (skipJsonWs rest3) with
          | .error e => .error e
          | .ok (v, rest4) =>
            match skipJsonWs rest4 with
            | ',' :: rest6 => parseMembers fuel (skipJsonWs rest6) (dictSet acc key v)
            | '}' :: rest6 => .ok (Json.obj (dictSet acc key v), rest6)
            | _ => .error msgComma
        | _ => .error msgColon
    | _ => .error msgPropertyName

/-- Elements of an array after the opening bracket (input at a value). -/
def parseElems : Nat → Str → List Json → Except Str (Json × Str)
  | 0, _, _ => .error msgExpectingValue
  | fuel + 1, cs, acc =>
    match parseValue fuel cs with
    | .error e => .error e
    | .ok (v, rest) =>
      match skipJsonWs rest with
      | ',' :: rest2 => parseElems fuel (skipJsonWs rest2) (acc ++ [v])
      | ']' :: rest2 => .ok (Json.arr (acc ++ [v]), rest2)
      | _ => .error msgComma

end

/-- Model of Python json.loads: one value, surrounded only by whitespace. -/
def json_loads (cs : Str) : Except Str Json :=
  match parseValue (2 * cs.length + 8) (skipJsonWs cs) with
  | .error e => .error e
  | .ok (v, rest) => if (skipJsonWs rest).isEmpty then .ok v else .error msgExtraData

/-! ### The JSON repair parser (extract_json_from_gemini_response) -/

/-- First repair pass, step 1: `json_str.replace("\\", "\\\\")` — double
every backslash (left-to-right single-character replacement). -/
def doubleBackslash : Str → Str
  | [] => []
  | c :: rest =>
    if c = '\\' then '\\' :: '\\' :: doubleBackslash rest
    else c :: doubleBackslash rest

/-- First repair pass, step 2: `json_str.replace("\\\\\"", "\\\"")` — each
left-to-right, non-overlapping occurrence of backslash-backslash-quote
becomes backslash-quote. -/
def undoubleQuote : Str → Str
  | [] => []
  | '\\' :: '\\' :: '"' :: rest => '\\' :: '"' :: undoubleQuote rest
  | c :: rest => c :: undoubleQuote rest

/-- The characters that may legally follow a backslash in JSON text,
the set [^"\\/bfnrtu] of the second repair pass. -/
def validAfterBackslash (c : Char) : Bool :=
  (c == '"') || (c == '\\') || (c == '/') || (c == 'b') || (c == 'f') ||
  (c == 'n') || (c == 'r') || (c == 't') || (c == 'u')

/-- Second repair pass: `re.sub(r'\\([^"\\/bfnrtu])', r'\\\\\1', json_str)` —
a backslash followed by a character that is not valid after a JSON
backslash gets doubled; on no match the scan advances one character. -/
def escapeInvalid : Str → Str
  | [] => []
  | ['\\'] => ['\\']
  | '\\' :: c2 :: rest2 =>
    if validAfterBackslash c2 then '\\' :: escapeInvalid (c2 :: rest2)
    else '\\' :: '\\' :: c2 :: escapeInvalid rest2
  | c :: rest => c :: escapeInvalid rest

/-- After the closing brace the regex requires \s* then three backticks. -/
def fenceAfterClose (suffix : Str) : Bool :=
  ("```").data.isPrefixOf (suffix.dropWhile isPySpace)

/-- Scan the reversed brace body for the last `}` of the original text that
is followed (modulo whitespace) by a closing fence: the greedy `.*` of the
pattern backtracks to exactly that position.  `sfx` is the already-scanned
suffix in original order; returns the body up to and including that `}`. -/
def lastCloseAux : Str → Str → Option Str
  | _, [] => none
  | sfx, c :: rv =>
    if c = '}' ∧ fenceAfterClose sfx then some (rv.reverse ++ ['}'])
    else lastCloseAux (c :: sfx) rv

/-- Try to complete the match of `\s*(\{.*\})\s*```+anything` right after an
occurrence of the opening fence literal. -/
def tryFenceStart (cs : Str) : Option Str :=
  match cs.dropWhile isPySpace with
  | '{' :: body => (lastCloseAux [] body.reverse).map (fun inner => '{' :: inner)
  | _ => none

/-- Model of Python `re.search(r"```json\s*(\{.*\})\s*```", text, re.DOTALL)`
returning group 1: the earliest start position wins, and for it the greedy
`.*` picks the last eligible closing brace. -/
def reSearchFence : Str → Option Str
  | [] => none
  | c :: rest =>
    if ("```json").data.isPrefixOf (c :: rest) then
      match tryFenceStart ((c :: rest).drop 7) with
      | some g => some g
      | none => reSearchFence rest
    else reSearchFence rest

/-- The candidate text handed to the repair passes: the fenced group when
the regex matches, else the whole response. -/
def candidateOf (text : Str) : Str := (reSearchFence text).getD text

/-- The text parsed by the first repair attempt. -/
def firstPassStr (text : Str) : Str := undoubleQuote (doubleBackslash (candidateOf text))

/-- The text parsed by the second repair attempt. -/
def secondPassStr (text : Str) : Str := escapeInvalid (candidateOf text)

/-- Message of the ValueError raised when a json.loads attempt fails:
both underlying decode errors are concatenated. -/
def innerErrMsg (e1 e2 : Str) : Str :=
  ("Error decoding JSON from Gemini response: ").data ++ e1 ++
  ((". Additional error: ").data) ++ e2

/-- The outer catch-all except re-wraps the inner ValueError once more. -/
def outerErrMsg (e : Str) : Str :=
  ("Error decoding JSON from Gemini response: ").data ++ e

/-- src/backend/main.py lines 36-69: fence extraction, the two repair
passes, and the doubly wrapped ValueError when both passes fail. -/
def extract_json_from_gemini_response (text : Str) : Except Str Json :=
  match json_loads (firstPassStr text) with
  | .ok d => .ok d
  | .error e =>
    match json_loads (secondPassStr text) with
    | .ok d => .ok d
    | .error ne => .error (outerErrMsg (innerErrMsg e ne))

/-! ### The page chunker (process_ocr_results_for_embedding) -/

/-- One OCR image record: only the keys the code reads. -/
structure Image where
  caption : Option Str
  base64 : Option Str

/-- One OCR page record: `none` models an absent key. -/
structure Page where
  fixed_text : Option Str
  text : Option Str
  markdown : Option Str
  tables : Option (List Json)
  images : Option (List Image)

/-- The OCR result structure handed to the chunker. -/
structure OcrResult where
  pages : Option (List Page)

/-- Oracle for the Gemini LLM: `resp i` is the text of the i-th
generate_content call when it succeeds and `none` when it raises;
`dur i` is the wall-clock time the i-th call consumes. -/
structure LlmEnv where
  resp : Nat → Option String
  dur : Nat → Rat

/-- Mutable state threaded through the chunking loop: the oracle call
index, `gemini_request_count`, `gemini_request_start`, and the clock. -/
structure ChunkerSt where
  attempt : Nat
  count : Nat
  windowStart : Rat
  now : Rat

/-- main.py lines 189-196: when 15 requests have been counted, sleep out
the rest of the 60-unit window (if any), then reset count and window. -/
def rateGate (st : ChunkerSt) : ChunkerSt :=
  if 15 ≤ st.count then
    ⟨st.attempt, 0,
     if st.now - st.windowStart < 60 then st.now + (60 - (st.now - st.windowStart)) else st.now,
     if st.now - st.windowStart < 60 then st.now + (60 - (st.now - st.windowStart)) else st.now⟩
  else st

/-- main.py lines 227-233: the single fallback chunk appended on any
failure of the text path, with the original page text as content. -/
def fallbackChunk (pn : Nat) (content : Str) : Json :=
  Json.obj [ (("type").data, Json.str (("text").data))
           , (("page").data, jnum pn)
           , (("content").data, Json.str content)
           , (("meaning").data, Json.str (("Full page text without further chunking.").data))
           , (("summary").data, Json.str (("Fallback chunk.").data)) ]

/-- main.py lines 238-245: one chunk per table, indexed by position. -/
def tableChunk (pn idx : Nat) (t : Json) : Json :=
  Json.obj [ (("type").data, Json.str (("table").data))
           , (("page").data, jnum pn)
           , (("table_index").data, jnum idx)
           , (("content").data, t)
           , (("meaning").data, Json.str (("Table data extracted from the page.").data))
           , (("summary").data, Json.str (("Table representation.").data)) ]

/-- main.py lines 250-261: one chunk per image, with optional caption and
base64 data appended in that order. -/
def imageChunk (pn idx : Nat) (img : Image) : Json :=
  Json.obj
    ([ (("type").data, Json.str (("image").data))
     , (("page").data, jnum pn)
     , (("image_index").data, jnum idx)
     , (("meaning").data, Json.str (("Visual content on the page.").data))
     , (("summary").data, Json.str (("Extracted image.").data)) ]
     ++ (match img.caption with
         | some c => [(("caption").data, Json.str c)]
         | none => [])
     ++ (match img.base64 with
         | some b => [(("image_data").data, Json.str b)]
         | none => []))

/-- main.py lines 222-224: `for chunk in ...: chunk["page"] = n; append`.
Each dict element is stamped and appended; the first non-dict element
raises TypeError, keeping the chunks appended so far (second component
true means the loop raised). -/
def stampLoop (pn : Nat) : List Json → List Json × Bool
  | [] => ([], false)
  | x :: rest =>
    match x with
    | Json.obj kvs =>
      let r := stampLoop pn rest
      (Json.obj (dictSet kvs (("page").data) (jnum pn)) :: r.1, r.2)
    | _ => ([], true)

/-- main.py lines 219-224 after a successful parse: `.get("chunks", [])`,
`len(...)`, and the stamping loop.  Returns the chunks appended and
whether a TypeError/AttributeError was raised on the way.  A non-dict
top-level value raises at `.get`; a non-sized `chunks` value raises at
`len`; a string or dict iterates to non-dict elements. -/
def chunksPlan (d : Json) (pn : Nat) : List Json × Bool :=
  match d with
  | Json.obj kvs =>
    match dictGet kvs (("chunks").data) with
    | none => ([], false)
    | some (Json.arr xs) => stampLoop pn xs
    | some (Json.str s) => ([], !s.isEmpty)
    | some (Json.obj kvs2) => ([], !kvs2.isEmpty)
    | some _ => ([], true)
  | _ => ([], true)

/-- main.py lines 189-233: the text path for one non-empty page — rate
gate, LLM call (counted only on success), repair parse, stamping, and the
catch-all that converts any failure into one fallback chunk. -/
def processPageText (env : LlmEnv) (st : ChunkerSt) (pn : Nat) (content : Str) :
    ChunkerSt × List Json :=
  let st1 := rateGate st
  match env.resp st1.attempt with
  | none =>
    (⟨st1.attempt + 1, st1.count, st1.windowStart, st1.now + env.dur st1.attempt⟩,
     [fallbackChunk pn content])
  | some r =>
    let st2 : ChunkerSt :=
      ⟨st1.attempt + 1, st1.count + 1, st1.windowStart, st1.now + env.dur st1.attempt⟩
    match extract_json_from_gemini_response r.data with
    | .error _ => (st2, [fallbackChunk pn content])
    | .ok d =>
      let plan := chunksPlan d pn
      (st2, plan.1 ++ if plan.2 then [fallbackChunk pn content] else [])

/-- main.py line 186: `page.get("fixed_text") or page.get("text") or
page.get("markdown")`. -/
def pageContentOf (p : Page) : Option Str := pyOr (pyOr p.fixed_text p.text) p.markdown

/-- main.py line 188: `if page_content and page_content.strip():`. -/
def textGuard (p : Page) : Bool :=
  match pageContentOf p with
  | some c => !(pyStrip c).isEmpty
  | none => false

/-- main.py lines 235-245: the table loop (guarded by key presence and
truthiness of the list). -/
def tableChunksOf (pn : Nat) (p : Page) : List Json :=
  match p.tables with
  | some ts => if ts.isEmpty then [] else ts.enum.map (fun e => tableChunk pn e.1 e.2)
  | none => []

/-- main.py lines 247-261: the image loop. -/
def imageChunksOf (pn : Nat) (p : Page) : List Json :=
  match p.images with
  | some imgs => if imgs.isEmpty then [] else imgs.enum.map (fun e => imageChunk pn e.1 e.2)
  | none => []

/-- One iteration of the page loop: text/LLM chunks, then tables, then
images. -/
def processPage (env : LlmEnv) (st : ChunkerSt) (pn : Nat) (p : Page) :
    ChunkerSt × List Json :=
  let tr := if textGuard p then processPageText env st pn ((pageContentOf p).getD []) else (st, [])
  (tr.1, tr.2 ++ tableChunksOf pn p ++ imageChunksOf pn p)

/-- The page loop, pages numbered from `pn` upward. -/
def runPages (env : LlmEnv) : ChunkerSt → Nat → List Page → ChunkerSt × List Json
  | st, _, [] => (st, [])
  | st, pn, p :: ps =>
    let r := processPage env st pn p
    let r2 := runPages env r.1 (pn + 1) ps
    (r2.1, r.2 ++ r2.2)

/-- Initial chunker state: count 0, window start and clock at `t0`. -/
def initChunkerSt (t0 : Rat) : ChunkerSt := ⟨0, 0, t0, t0⟩

def msgGeminiKey : Str := ("GEMINI_API_KEY not found in environment variables").data

/-- main.py lines 159-264: the whole chunker.  `apiKey` is the value of
the geminiApiKey environment variable (None when unset; the empty string
is falsy and also raises). -/
def process_ocr_results_for_embedding (apiKey : Option String) (env : LlmEnv) (t0 : Rat)
    (ocr : OcrResult) : Except Str (List Json) :=
  match apiKey with
  | none => .error msgGeminiKey
  | some k =>
    if k.isEmpty then .error msgGeminiKey
    else
      match ocr.pages with
      | none => .ok []
      | some ps => .ok (runPages env (initChunkerSt t0) 1 ps).2

/-! ### The LaTeX normalizer (fix_latex_with_gemini) -/

/-- Oracle for the normalizer pass: `resp i` is the trimmed-source text of
the i-th generate_content call of this pass, `none` when it raises. -/
structure LatexEnv where
  resp : Nat → Option String

/-- main.py line 133: `"$" in t or "\(" in t or "\[" in t`. -/
def hasMathMarker (c : Str) : Bool :=
  containsSubstr (("$").data) c || containsSubstr (("\\(").data) c ||
  containsSubstr (("\\[").data) c

/-- main.py line 128: `page.get("text") or page.get("markdown")` (the
normalizer does not consult fixed_text). -/
def pageContentOfLatex (p : Page) : Option Str := pyOr p.text p.markdown

/-- main.py lines 127-153: one page of the LaTeX pass.  Pages whose
selected content is falsy or whitespace-only are skipped (no fixed_text
is stored); marker-free pages pass through; marker-bearing pages get the
stripped LLM response, or the original text when the call raises. -/
def fixPage (env : LatexEnv) (attempt : Nat) (p : Page) : Nat × Page :=
  match pageContentOfLatex p with
  | none => (attempt, p)
  | some c =>
    if (pyStrip c).isEmpty then (attempt, p)
    else if hasMathMarker c then
      match env.resp attempt with
      | some r => (attempt + 1, { p with fixed_text := some (pyStrip r.data) })
      | none => (attempt + 1, { p with fixed_text := some c })
    else (attempt, { p with fixed_text := some c })

/-- The page loop of the LaTeX pass, threading the oracle call index. -/
def fixPages (env : LatexEnv) : Nat → List Page → List Page
  | _, [] => []
  | a, p :: ps =>
    let r := fixPage env a p
    r.2 :: fixPages env r.1 ps

/-- main.py lines 112-157: the whole normalizer; raises when the Gemini
key is absent or empty, otherwise rewrites the pages in place. -/
def fix_latex_with_gemini (apiKey : Option String) (env : LatexEnv) (ocr : OcrResult) :
    Except Str OcrResult :=
  match apiKey with
  | none => .error msgGeminiKey
  | some k =>
    if k.isEmpty then .error msgGeminiKey
    else
      match ocr.pages with
      | none => .ok ⟨none⟩
      | some ps => .ok ⟨some (fixPages env 0 ps)⟩

/-! ### The orchestrator (process_pdf_task) -/

/-- The mutable job record of the in-memory job store. -/
structure Job where
  status : String
  error : Option String
  result : Option (List Json × Nat)

/-- main.py lines 292-325, as the trace of job-record states after each
mutation.  The three pipeline stages are passed as outcomes: `.error m`
models the stage raising an exception whose str() is `m`. -/
def process_pdf_task (ocrStage : Except String OcrResult)
    (latexStage : OcrResult → Except String OcrResult)
    (chunkStage : OcrResult → Except String (List Json)) : List Job :=
  let j0 : Job := ⟨("queued"), none, none⟩
  let j1 : Job := { j0 with status := ("processing_ocr") }
  match ocrStage with
  | .error e =>
    let f1 := { j1 with status := ("failed") }
    [j0, j1, f1, { f1 with error := some e }]
  | .ok ocr1 =>
    match latexStage ocr1 with
    | .error e =>
      let f1 := { j1 with status := ("failed") }
      [j0, j1, f1, { f1 with error := some e }]
    | .ok ocr2 =>
      let j2 := { j1 with status := ("processing_chunks") }
      match chunkStage ocr2 with
      | .error e =>
        let f1 := { j2 with status := ("failed") }
        [j0, j1, j2, f1, { f1 with error := some e }]
      | .ok cs =>
        let j3 := { j2 with status := ("completed") }
        [j0, j1, j2, j3, { j3 with result := some (cs, cs.length) }]

/-! ### Concrete inputs used by witnesses and counterexamples -/

/-- A fenced response whose body holds a JSON string escape: the body
denotes a newline, the repaired parse yields backslash-n. -/
def cexFenceText : Str := ("```json\n\x7b\"a\": \"\\n\"\x7d\n```").data

def cexFenceBody : Str := ("\x7b\"a\": \"\\n\"\x7d").data

/-- An LLM oracle whose calls always fail, instantly. -/
def envAllFail : LlmEnv := ⟨fun _ => none, fun _ => 0⟩

/-- An LLM oracle that always answers with non-JSON text, instantly. -/
def envGibberish : LlmEnv := ⟨fun _ => some ("not json at all"), fun _ => 0⟩

/-- An LLM oracle that always answers a well-formed but chunkless object. -/
def envNoChunks : LlmEnv := ⟨fun _ => some ("\x7b\"chunks\": []\x7d"), fun _ => 0⟩

/-- A latex-pass oracle that always fails. -/
def latexEnvFail : LatexEnv := ⟨fun _ => none⟩

/-- A latex-pass oracle answering a fixed corrected text. -/
def latexEnvOk : LatexEnv := ⟨fun _ => some (" fixed $x$ ")⟩

/-- A page holding only whitespace text, one table and one image. -/
def wsPage : Page :=
  ⟨none, some ((" \n \t ").data), none,
   some [Json.str (("t0").data)],
   some [⟨some (("cap").data), some (("imgdata").data)⟩]⟩

/-- A plain non-empty text page with no tables or images. -/
def plainPage : Page := ⟨none, some (("hello world").data), none, none, none⟩

/-- A page with math markers in its text. -/
def mathPage : Page := ⟨none, some (("sum $x^2$ over n").data), none, none, none⟩

/-- A page whose text key is present but empty. -/
def emptyPage : Page := ⟨none, some [], none, none, none⟩

/-- A one-page OCR result used by concrete runs. -/
def ocrOnePage : OcrResult := ⟨some [plainPage]⟩

/-- A chunker state in the middle of a window: 15 counted calls, 30 time
units into the window. -/
def stMidWindow : ChunkerSt := ⟨0, 15, 0, 30⟩

/-- Identity latex stage used by concrete orchestrator runs. -/
def latexStageId : OcrResult → Except String OcrResult := fun o => .ok o

/-- Chunk stage answering no chunks, used by concrete orchestrator runs. -/
def chunkStageNil : OcrResult → Except String (List Json) := fun _ => .ok []

/-! ### Helper lemmas -/

theorem doubleBackslash_of_no_backslash {s : Str} (h : '\\' ∉ s) :
    doubleBackslash s = s := by
  induction s with
  | nil => rfl
  | cons c rest ih =>
    have hc : ¬(c = '\\') := fun hc => h (hc ▸ List.mem_cons_self c rest)
    have hr : '\\' ∉ rest := fun hm => h (List.mem_cons_of_mem c hm)
    simp [doubleBackslash, hc, ih hr]

theorem undoubleQuote_of_no_backslash {s : Str} (h : '\\' ∉ s) :
    undoubleQuote s = s := by
  induction s with
  | nil => rfl
  | cons c rest ih =>
    have hc : ¬(c = '\\') := fun hc => h (hc ▸ List.mem_cons_self c rest)
    have hr : '\\' ∉ rest := fun hm => h (List.mem_cons_of_mem c hm)
    rw [undoubleQuote.eq_def]
    split
    · rename_i heq
      exact absurd heq (by simp)
    · rename_i heq
      injection heq with h1 h2
      exact absurd h1 hc
    · rename_i x c2 rest2 hno heq
      injection heq with h1 h2
      subst h1
      subst h2
      rw [ih hr]

theorem rateGate_attempt (st : ChunkerSt) : (rateGate st).attempt = st.attempt := by
  unfold rateGate; split <;> rfl

theorem rateGate_windowStart_eq_now (st : ChunkerSt) (h : 15 ≤ st.count) :
    (rateGate st).windowStart = (rateGate st).now := by
  unfold rateGate; rw [if_pos h]

theorem rateGate_count (st : ChunkerSt) :
    (rateGate st).count = if 15 ≤ st.count then 0 else st.count := by
  unfold rateGate; split <;> simp_all

theorem rateGate_eq_of_mid_window (st : ChunkerSt) (h1 : 15 ≤ st.count)
    (h2 : st.now - st.windowStart < 60) :
    rateGate st = ⟨st.attempt, 0, st.windowStart + 60, st.windowStart + 60⟩ := by
  have e : st.now + (60 - (st.now - st.windowStart)) = st.windowStart + 60 := by ring
  unfold rateGate
  rw [if_pos h1, if_pos h2, e]

theorem dictGet_dictSet (kvs : List (Str × Json)) (k : Str) (v : Json) :
    dictGet (dictSet kvs k v) k = some v := by
  induction kvs with
  | nil => simp [dictSet, dictGet]
  | cons kv rest ih =>
    obtain ⟨k0, v0⟩ := kv
    by_cases h : k0 = k
    · simp [dictSet, dictGet, h]
    · simp [dictSet, dictGet, h, ih]

theorem stampLoop_mem {pn : Nat} {xs : List Json} {ch : Json}
    (h : ch ∈ (stampLoop pn xs).1) :
    ∃ kvs, ch = Json.obj (dictSet kvs (("page").data) (jnum pn)) := by
  induction xs with
  | nil => simp [stampLoop] at h
  | cons x rest ih =>
    cases x <;> simp [stampLoop] at h
    case obj kvs =>
      rcases h with h | h
      · exact ⟨kvs, h⟩
      · exact ih h

theorem jsonGet_fallback_page (pn : Nat) (c : Str) :
    jsonGet (fallbackChunk pn c) (("page").data) = some (jnum pn) := rfl

theorem jsonGet_table_page (pn idx : Nat) (t : Json) :
    jsonGet (tableChunk pn idx t) (("page").data) = some (jnum pn) := rfl

theorem jsonGet_image_page (pn idx : Nat) (img : Image) :
    jsonGet (imageChunk pn idx img) (("page").data) = some (jnum pn) := by
  obtain ⟨cap, b64⟩ := img
  cases cap <;> cases b64 <;> rfl

theorem jsonGet_stamped_page (kvs : List (Str × Json)) (pn : Nat) :
    jsonGet (Json.obj (dictSet kvs (("page").data) (jnum pn))) (("page").data) =
      some (jnum pn) :=
  dictGet_dictSet kvs _ _

theorem tableChunksOf_eq (pn : Nat) (p : Page) :
    tableChunksOf pn p = (p.tables.getD []).enum.map (fun e => tableChunk pn e.1 e.2) := by
  unfold tableChunksOf
  cases htb : p.tables with
  | none => rfl
  | some ts => cases ts <;> simp

theorem imageChunksOf_eq (pn : Nat) (p : Page) :
    imageChunksOf pn p = (p.images.getD []).enum.map (fun e => imageChunk pn e.1 e.2) := by
  unfold imageChunksOf
  cases him : p.images with
  | none => rfl
  | some imgs => cases imgs <;> simp

theorem textGuard_eq_true (p : Page) (c : Str) (h1 : pageContentOf p = some c)
    (h2 : (pyStrip c).isEmpty = false) : textGuard p = true := by
  unfold textGuard; rw [h1]; simp [h2]

/-! ### Claim C1 -/

/-- Claim C1 is refuted: for the fenced response whose brace-delimited body
is the syntactically valid object with a newline string escape, the repair
parser succeeds but returns a different object — the first repair pass
doubles the backslash, so the decoded value holds backslash-n where the
body denoted a newline.  Repairing then parsing a valid object is
therefore not content-preserving. -/
theorem c1_round_trip_counterexample :
    reSearchFence cexFenceText = some cexFenceBody
    ∧ json_loads cexFenceBody = .ok (Json.obj [((("a").data), Json.str ['\n'])])
    ∧ extract_json_from_gemini_response cexFenceText =
        .ok (Json.obj [((("a").data), Json.str ['\\', 'n'])])
    ∧ Json.str ['\n'] ≠ Json.str ['\\', 'n'] := by
  refine ⟨rfl, rfl, rfl, ?_⟩
  intro hh
  injection hh with hs
  exact absurd (List.cons.inj hs).1 (by decide)

/-- Claim C1 as amended: whenever the candidate selected by the fence
search contains no backslash at all and is syntactically valid JSON, the
repair passes are the identity on it and the parser returns exactly the
object the candidate denotes. -/
theorem c1_round_trip_amended (text b : Str) (v : Json)
    (hb : reSearchFence text = some b)
    (hnb : '\\' ∉ b)
    (hv : json_loads b = .ok v) :
    extract_json_from_gemini_response text = .ok v := by
  have hc : candidateOf text = b := by rw [candidateOf, hb]; rfl
  have h1 : firstPassStr text = b := by
    rw [firstPassStr, hc, doubleBackslash_of_no_backslash hnb,
        undoubleQuote_of_no_backslash hnb]
  unfold extract_json_from_gemini_response
  rw [h1, hv]

/-- Witness for the amended C1 at a concrete fenced input. -/
theorem c1_round_trip_amended_witness :
    extract_json_from_gemini_response (("```json \x7b\"k\": 1\x7d ```").data) =
      .ok (Json.obj [((("k").data), Json.num ['1'])]) :=
  c1_round_trip_amended _ _ _ rfl (by decide) rfl

/-! ### Claim C5 -/

/-- Claim C5: when both repair passes fail to parse, the repair parser
signals a single error whose message carries both underlying parse errors
concatenated (doubly wrapped by the catch-all except).  The embedding is a
total function into `Except`, mirroring that no other exception escapes:
every input reaches either an `.ok` or this composite `.error`. -/
theorem c5_double_failure (text e1 e2 : Str)
    (h1 : json_loads (firstPassStr text) = .error e1)
    (h2 : json_loads (secondPassStr text) = .error e2) :
    extract_json_from_gemini_response text = .error (outerErrMsg (innerErrMsg e1 e2)) := by
  unfold extract_json_from_gemini_response
  rw [h1, h2]

/-- Witness for C5 on pure gibberish. -/
theorem c5_double_failure_witness :
    extract_json_from_gemini_response (("complete gibberish").data) =
      .error (outerErrMsg (innerErrMsg msgExpectingValue msgExpectingValue)) :=
  c5_double_failure _ _ _ rfl rfl

theorem processPageText_fallback (env : LlmEnv) (st : ChunkerSt) (pn : Nat) (c : Str)
    (h : env.resp st.attempt = none ∨
         ∃ r e, env.resp st.attempt = some r ∧
           extract_json_from_gemini_response r.data = .error e) :
    (processPageText env st pn c).2 = [fallbackChunk pn c] := by
  rcases h with hnone | ⟨r, e, hr, he⟩
  · simp only [processPageText, rateGate_attempt, hnone]
  · simp only [processPageText, rateGate_attempt, hr, he]

theorem processPageText_fst_success (env : LlmEnv) (st : ChunkerSt) (pn : Nat) (c : Str)
    (r : String) (hr : env.resp st.attempt = some r) :
    (processPageText env st pn c).1 =
      ⟨st.attempt + 1, (rateGate st).count + 1, (rateGate st).windowStart,
       (rateGate st).now + env.dur st.attempt⟩ := by
  simp only [processPageText, rateGate_attempt, hr]
  cases hx : extract_json_from_gemini_response r.data <;> simp

theorem processPageText_fst_failure (env : LlmEnv) (st : ChunkerSt) (pn : Nat) (c : Str)
    (hr : env.resp st.attempt = none) :
    (processPageText env st pn c).1 =
      ⟨st.attempt + 1, (rateGate st).count, (rateGate st).windowStart,
       (rateGate st).now + env.dur st.attempt⟩ := by
  simp only [processPageText, rateGate_attempt, hr]

/-! ### Claim C2 -/

/-- Claim C2: for a non-empty page (selected content `c`, non-blank after
stripping) on which the LLM call raises or the repair parse fails, the
chunk list for that page starts with exactly one fallback chunk — type
text, the page number, the page text verbatim as content, and the fixed
meaning and summary strings (see `fallbackChunk`) — followed only by the
page's unconditional table and image chunks; no partial LLM output is
kept, so the text-chunking step grows the list by exactly that record. -/
theorem c2_fallback_atomicity (env : LlmEnv) (st : ChunkerSt) (pn : Nat) (p : Page) (c : Str)
    (hg : pageContentOf p = some c)
    (hne : (pyStrip c).isEmpty = false)
    (h : env.resp st.attempt = none ∨
         ∃ r e, env.resp st.attempt = some r ∧
           extract_json_from_gemini_response r.data = .error e) :
    (processPage env st pn p).2 =
      fallbackChunk pn c :: (tableChunksOf pn p ++ imageChunksOf pn p) := by
  unfold processPage
  rw [textGuard_eq_true p c hg hne, hg]
  simp only [if_true, Option.getD_some]
  rw [processPageText_fallback env st pn c h]
  rfl

/-- Witness for C2: a failing LLM call on a plain page yields the single
fallback chunk carrying the page text. -/
theorem c2_fallback_atomicity_witness :
    (processPage envAllFail (initChunkerSt 0) 1 plainPage).2 =
      fallbackChunk 1 (("hello world").data) :: ([] ++ []) :=
  c2_fallback_atomicity envAllFail (initChunkerSt 0) 1 plainPage _ rfl rfl (Or.inl rfl)

/-! ### Claim C10 -/

/-- Claim C10: when the repaired response parses to an object that lacks a
`chunks` key, or maps it to the empty array, the chunker appends no text
chunk and no fallback chunk for the page — a well-formed but chunkless
response produces the same empty per-page text output as an empty page. -/
theorem c10_chunkless_success (env : LlmEnv) (st : ChunkerSt) (pn : Nat) (c : Str)
    (r : String) (kvs : List (Str × Json))
    (hr : env.resp st.attempt = some r)
    (hx : extract_json_from_gemini_response r.data = .ok (Json.obj kvs))
    (hc : dictGet kvs (("chunks").data) = none ∨
          dictGet kvs (("chunks").data) = some (Json.arr [])) :
    (processPageText env st pn c).2 = [] := by
  simp only [processPageText, rateGate_attempt, hr, hx]
  rcases hc with hc | hc <;> simp [chunksPlan, hc, stampLoop]

/-- Witness for C10: an LLM that answers an empty chunks array produces no
chunks and no fallback. -/
theorem c10_chunkless_success_witness :
    (processPageText envNoChunks (initChunkerSt 0) 1 (("hi").data)).2 = [] :=
  c10_chunkless_success envNoChunks (initChunkerSt 0) 1 (("hi").data) _ _ rfl rfl
    (Or.inr rfl)

/-! ### Claim C3 -/

/-- Claim C3: the rate gate of the chunker.  (i) When the running call
count has reached 15 and fewer than 60 time units have elapsed since the
window start, the gate blocks until the window elapses and resets the
count to 0 and the window start to that instant.  (ii) A call that returns
successfully increments the counter by one over the gated count, (iii) a
failed call never increments it, (iv) hence in the gated situation the
16th successful call ends with count 1 in the new window starting 60 units
after the old one, and (v) the counter never exceeds 15. -/
theorem c3_rate_gate (env : LlmEnv) (st : ChunkerSt) (pn : Nat) (c : Str) :
    (15 ≤ st.count → st.now - st.windowStart < 60 →
      rateGate st = ⟨st.attempt, 0, st.windowStart + 60, st.windowStart + 60⟩)
    ∧ (∀ r, env.resp st.attempt = some r →
        (processPageText env st pn c).1.count = (rateGate st).count + 1)
    ∧ (env.resp st.attempt = none →
        (processPageText env st pn c).1.count = (rateGate st).count)
    ∧ (15 ≤ st.count → st.now - st.windowStart < 60 →
        ∀ r, env.resp st.attempt = some r →
          (processPageText env st pn c).1.count = 1 ∧
          (processPageText env st pn c).1.windowStart = st.windowStart + 60)
    ∧ (st.count ≤ 15 → (processPageText env st pn c).1.count ≤ 15) := by
  refine ⟨rateGate_eq_of_mid_window st, ?_, ?_, ?_, ?_⟩
  · intro r hr
    rw [processPageText_fst_success env st pn c r hr]
  · intro hr
    rw [processPageText_fst_failure env st pn c hr]
  · intro h1 h2 r hr
    have hg := rateGate_eq_of_mid_window st h1 h2
    rw [processPageText_fst_success env st pn c r hr]
    exact ⟨by rw [hg], by rw [hg]⟩
  · intro hle
    cases hr : env.resp st.attempt with
    | none =>
      rw [processPageText_fst_failure env st pn c hr]
      show (rateGate st).count ≤ 15
      rw [rateGate_count]
      split <;> omega
    | some r =>
      rw [processPageText_fst_success env st pn c r hr]
      show (rateGate st).count + 1 ≤ 15
      rw [rateGate_count]
      split <;> omega

/-- Witness for C3 at a state with 15 counted calls half-way through the
window: the gate sleeps to the window boundary, the next successful call
counts as call 1 of the new window, a failing call keeps the gated count. -/
theorem c3_rate_gate_witness :
    rateGate stMidWindow =
      ⟨stMidWindow.attempt, 0, stMidWindow.windowStart + 60, stMidWindow.windowStart + 60⟩
    ∧ (processPageText envNoChunks stMidWindow 1 (("hi").data)).1.count = 1
    ∧ (processPageText envAllFail stMidWindow 1 (("hi").data)).1.count =
        (rateGate stMidWindow).count
    ∧ (processPageText envNoChunks stMidWindow 1 (("hi").data)).1.windowStart =
        stMidWindow.windowStart + 60 := by
  have h := c3_rate_gate envNoChunks stMidWindow 1 (("hi").data)
  have hf := c3_rate_gate envAllFail stMidWindow 1 (("hi").data)
  have h15 : 15 ≤ stMidWindow.count := by norm_num [stMidWindow]
  have h60 : stMidWindow.now - stMidWindow.windowStart < 60 := by norm_num [stMidWindow]
  exact ⟨h.1 h15 h60, (h.2.2.2.1 h15 h60 _ rfl).1, hf.2.2.1 rfl,
         (h.2.2.2.1 h15 h60 _ rfl).2⟩

/-! ### Claim C6 -/

/-- Claim C6: for a page whose selected text is absent or whitespace-only
the chunker issues no LLM call (the state comes back unchanged) and
appends no text chunk and no fallback chunk; the page's table and image
chunks are still produced, one per table in table order and one per image
in image order, and for every page the table/image chunks are appended
unconditionally, whatever the text path did. -/
theorem c6_empty_page_skips_llm (env : LlmEnv) (st : ChunkerSt) (pn : Nat) (p : Page) :
    (textGuard p = false →
      processPage env st pn p = (st, tableChunksOf pn p ++ imageChunksOf pn p))
    ∧ (∃ tc, (processPage env st pn p).2 =
        tc ++ tableChunksOf pn p ++ imageChunksOf pn p)
    ∧ tableChunksOf pn p = (p.tables.getD []).enum.map (fun e => tableChunk pn e.1 e.2)
    ∧ imageChunksOf pn p = (p.images.getD []).enum.map (fun e => imageChunk pn e.1 e.2) := by
  refine ⟨?_, ?_, tableChunksOf_eq pn p, imageChunksOf_eq pn p⟩
  · intro hg
    unfold processPage
    rw [hg]
    rfl
  · exact ⟨(if textGuard p then processPageText env st pn ((pageContentOf p).getD [])
            else (st, [])).2, rfl⟩

/-- Witness for C6 on a whitespace-only page carrying one table and one
image: no LLM call, no text chunk, both passthrough chunks present. -/
theorem c6_empty_page_skips_llm_witness :
    processPage envAllFail (initChunkerSt 0) 2 wsPage =
      (initChunkerSt 0, tableChunksOf 2 wsPage ++ imageChunksOf 2 wsPage) :=
  (c6_empty_page_skips_llm envAllFail (initChunkerSt 0) 2 wsPage).1 rfl

theorem chunksPlan_mem (d : Json) (pn : Nat) (ch : Json)
    (h : ch ∈ (chunksPlan d pn).1) :
    ∃ kvs, ch = Json.obj (dictSet kvs (("page").data) (jnum pn)) := by
  unfold chunksPlan at h
  split at h
  · split at h
    · simp at h
    · exact stampLoop_mem h
    · simp at h
    · simp at h
    · simp at h
  · simp at h

theorem processPageText_mem_page (env : LlmEnv) (st : ChunkerSt) (pn : Nat) (c : Str)
    (ch : Json) (h : ch ∈ (processPageText env st pn c).2) :
    jsonGet ch (("page").data) = some (jnum pn) := by
  simp only [processPageText] at h
  split at h
  · simp at h
    exact h ▸ jsonGet_fallback_page pn c
  · split at h
    · simp at h
      exact h ▸ jsonGet_fallback_page pn c
    · rename_i r d hx
      simp only [] at h
      rcases List.mem_append.mp h with h | h
      · obtain ⟨kvs, rfl⟩ := chunksPlan_mem d pn ch h
        exact jsonGet_stamped_page kvs pn
      · split at h
        · simp at h
          exact h ▸ jsonGet_fallback_page pn c
        · simp at h

theorem processPage_mem_page (env : LlmEnv) (st : ChunkerSt) (pn : Nat) (p : Page)
    (ch : Json) (h : ch ∈ (processPage env st pn p).2) :
    jsonGet ch (("page").data) = some (jnum pn) := by
  simp only [processPage] at h
  rcases List.mem_append.mp h with h | h
  · rcases List.mem_append.mp h with h | h
    · by_cases hg : textGuard p = true
      · rw [if_pos hg] at h
        exact processPageText_mem_page env st pn _ ch h
      · rw [if_neg hg] at h
        simp at h
    · rw [tableChunksOf_eq] at h
      obtain ⟨e, he, rfl⟩ := List.mem_map.mp h
      exact jsonGet_table_page pn e.1 e.2
  · rw [imageChunksOf_eq] at h
    obtain ⟨e, he, rfl⟩ := List.mem_map.mp h
    exact jsonGet_image_page pn e.1 e.2

/-! ### Claim C7 -/

/-- Claim C7: ordering of the returned chunk list.  For every page the
per-page list is the text/LLM chunks, then one table chunk per table with
table_index equal to its position, then one image chunk per image with
image_index equal to its position; every chunk of the page carries that
page number under the `page` key; and the page loop concatenates per-page
lists in ascending page-number order starting at 1. -/
theorem c7_chunk_ordering (env : LlmEnv) (st : ChunkerSt) (pn : Nat) (p : Page)
    (ps : List Page) :
    (∃ tc, (processPage env st pn p).2 =
        tc ++ (p.tables.getD []).enum.map (fun e => tableChunk pn e.1 e.2)
           ++ (p.images.getD []).enum.map (fun e => imageChunk pn e.1 e.2))
    ∧ (∀ ch, ch ∈ (processPage env st pn p).2 →
        jsonGet ch (("page").data) = some (jnum pn))
    ∧ (runPages env st pn (p :: ps)).2 =
        (processPage env st pn p).2 ++
          (runPages env (processPage env st pn p).1 (pn + 1) ps).2
    ∧ (∀ (k : String) (t0 : Rat) (qs : List Page), k.isEmpty = false →
        process_ocr_results_for_embedding (some k) env t0 ⟨some qs⟩ =
          .ok (runPages env (initChunkerSt t0) 1 qs).2) := by
  refine ⟨?_, processPage_mem_page env st pn p, rfl, ?_⟩
  · refine ⟨(if textGuard p then processPageText env st pn ((pageContentOf p).getD [])
             else (st, [])).2, ?_⟩
    rw [← tableChunksOf_eq, ← imageChunksOf_eq]
    rfl
  · intro k t0 qs hk
    simp [process_ocr_results_for_embedding, hk]

/-- Witness for C7 on a concrete one-page run: the fallback chunk carries
page number 1, and the loop equation holds at a concrete state. -/
theorem c7_chunk_ordering_witness :
    jsonGet (fallbackChunk 1 (("hello world").data)) (("page").data) = some (jnum 1)
    ∧ (runPages envAllFail (initChunkerSt 0) 1 [plainPage]).2 =
        (processPage envAllFail (initChunkerSt 0) 1 plainPage).2 ++
          (runPages envAllFail (processPage envAllFail (initChunkerSt 0) 1 plainPage).1 2 []).2
    ∧ process_ocr_results_for_embedding (some ("key")) envAllFail 0 ⟨some [plainPage]⟩ =
        .ok (runPages envAllFail (initChunkerSt 0) 1 [plainPage]).2 := by
  have h := c7_chunk_ordering envAllFail (initChunkerSt 0) 1 plainPage []
  refine ⟨?_, h.2.2.1, h.2.2.2 ("key") 0 [plainPage] rfl⟩
  exact h.2.1 (fallbackChunk 1 (("hello world").data))
    (List.mem_append_left _ (List.mem_append_left _ (List.mem_singleton_self _)))

/-! ### Claim C4 -/

/-- Claim C4 is refuted as stated: with no Gemini API key in the
environment (lines 166-169 of main.py) the chunker raises a ValueError
before reaching any page, so it does not return a chunk list under every
environment configuration. -/
theorem c4_no_raise_counterexample :
    process_ocr_results_for_embedding none envAllFail 0 ocrOnePage = .error msgGeminiKey := rfl

/-- Claim C4 as amended: whenever the environment provides a non-empty
Gemini API key, the chunker returns a chunk list for every OCR input and
every behaviour of the LLM oracle — in the embedding every per-page
exception path is a value, mirroring the per-page catch-all that converts
failures into fallback chunks instead of propagating them. -/
theorem c4_no_raise_amended (k : String) (hk : k.isEmpty = false) (env : LlmEnv)
    (t0 : Rat) (ocr : OcrResult) :
    ∃ l, process_ocr_results_for_embedding (some k) env t0 ocr = .ok l := by
  simp only [process_ocr_results_for_embedding]
  rw [hk]
  simp only [Bool.false_eq_true, if_false]
  obtain ⟨op⟩ := ocr
  cases op with
  | none => exact ⟨[], rfl⟩
  | some ps => exact ⟨_, rfl⟩

/-- Witness for the amended C4 at a concrete key, oracle and input. -/
theorem c4_no_raise_amended_witness :
    ∃ l, process_ocr_results_for_embedding (some ("key")) envAllFail 0 ocrOnePage = .ok l :=
  c4_no_raise_amended ("key") rfl envAllFail 0 ocrOnePage

/-! ### Claim C8 -/

/-- Claim C8 is refuted as stated on two points: with no Gemini API key
the normalizer raises to its caller before any page is processed; and a
page whose selected text is empty is skipped without any corrected text
being recorded, rather than having its corrected text defined equal to
the original. -/
theorem c8_normalizer_counterexample :
    fix_latex_with_gemini none latexEnvFail ⟨some [mathPage]⟩ = .error msgGeminiKey
    ∧ fixPage latexEnvFail 0 emptyPage = (0, emptyPage)
    ∧ emptyPage.fixed_text = none := ⟨rfl, rfl, rfl⟩

/-- Claim C8 as amended: given a non-empty Gemini API key the normalizer
never fails to its caller, and per page: blank or absent text is skipped
with no corrected text recorded and no LLM call; marker-free text passes
through unchanged with no LLM call; marker-bearing text gets the trimmed
LLM response on success and falls back to the original text when the call
fails. -/
theorem c8_normalizer_amended (k : String) (hk : k.isEmpty = false) (env : LatexEnv)
    (ocr : OcrResult) (a : Nat) (p : Page) :
    (∃ res, fix_latex_with_gemini (some k) env ocr = .ok res)
    ∧ (pageContentOfLatex p = none → fixPage env a p = (a, p))
    ∧ (∀ c, pageContentOfLatex p = some c → (pyStrip c).isEmpty = true →
        fixPage env a p = (a, p))
    ∧ (∀ c, pageContentOfLatex p = some c → (pyStrip c).isEmpty = false →
        hasMathMarker c = false →
        fixPage env a p = (a, { p with fixed_text := some c }))
    ∧ (∀ c r, pageContentOfLatex p = some c → (pyStrip c).isEmpty = false →
        hasMathMarker c = true → env.resp a = some r →
        fixPage env a p = (a + 1, { p with fixed_text := some (pyStrip r.data) }))
    ∧ (∀ c, pageContentOfLatex p = some c → (pyStrip c).isEmpty = false →
        hasMathMarker c = true → env.resp a = none →
        fixPage env a p = (a + 1, { p with fixed_text := some c })) := by
  refine ⟨?_, ?_, ?_, ?_, ?_, ?_⟩
  · simp only [fix_latex_with_gemini]
    rw [hk]
    simp only [Bool.false_eq_true, if_false]
    obtain ⟨op⟩ := ocr
    cases op with
    | none => exact ⟨_, rfl⟩
    | some ps => exact ⟨_, rfl⟩
  · intro hc
    unfold fixPage
    rw [hc]
  · intro c hc hs
    unfold fixPage
    rw [hc]
    simp [hs]
  · intro c hc hs hm
    unfold fixPage
    rw [hc]
    simp [hs, hm]
  · intro c r hc hs hm hr
    unfold fixPage
    rw [hc]
    simp [hs, hm, hr]
  · intro c hc hs hm hr
    unfold fixPage
    rw [hc]
    simp [hs, hm, hr]

/-- Witness for the amended C8: a math-bearing page through a succeeding
and a failing oracle, and a marker-free page passing through. -/
theorem c8_normalizer_amended_witness :
    (∃ res, fix_latex_with_gemini (some ("key")) latexEnvOk ⟨some [mathPage]⟩ = .ok res)
    ∧ fixPage latexEnvOk 0 mathPage =
        (1, { mathPage with fixed_text := some (pyStrip ((" fixed $x$ ").data)) })
    ∧ fixPage latexEnvFail 0 mathPage =
        (1, { mathPage with fixed_text := some (("sum $x^2$ over n").data) })
    ∧ fixPage latexEnvOk 0 plainPage =
        (0, { plainPage with fixed_text := some (("hello world").data) }) := by
  have h1 := c8_normalizer_amended ("key") rfl latexEnvOk (⟨some [mathPage]⟩) 0 mathPage
  have h2 := c8_normalizer_amended ("key") rfl latexEnvFail (⟨some [mathPage]⟩) 0 mathPage
  have h3 := c8_normalizer_amended ("key") rfl latexEnvOk (⟨some [mathPage]⟩) 0 plainPage
  refine ⟨h1.1, ?_, ?_, ?_⟩
  · exact h1.2.2.2.2.1 _ _ rfl rfl rfl rfl
  · exact h2.2.2.2.2.2 _ rfl rfl rfl rfl
  · exact h3.2.2.2.1 _ rfl rfl rfl

/-! ### Claim C9 -/

/-- Claim C9 is refuted in one corner: when the OCR stage raises an
exception whose str() is empty (possible for provider-side errors, which
are propagated unchanged), the final stored state is failed with the
EMPTY error string — the claimed non-empty error string does not hold,
although the job still never reaches processing_chunks. -/
theorem c9_ocr_failure_counterexample :
    (process_pdf_task (Except.error ("")) latexStageId chunkStageNil).getLast? =
      some ⟨("failed"), some (""), none⟩ := rfl

/-- Claim C9 as amended: for every job whose OCR stage raises with
stringified message m, the trace of job states is queued, processing_ocr,
failed, failed-with-error — the status is never set to processing_chunks,
and the final stored state is failed with error equal to m (non-empty
exactly when the exception message is non-empty). -/
theorem c9_ocr_failure_amended (latexStage : OcrResult → Except String OcrResult)
    (chunkStage : OcrResult → Except String (List Json)) (m : String) :
    process_pdf_task (Except.error m) latexStage chunkStage =
      [⟨("queued"), none, none⟩, ⟨("processing_ocr"), none, none⟩,
       ⟨("failed"), none, none⟩, ⟨("failed"), some m, none⟩]
    ∧ (∀ j ∈ process_pdf_task (Except.error m) latexStage chunkStage,
        j.status ≠ ("processing_chunks"))
    ∧ (process_pdf_task (Except.error m) latexStage chunkStage).getLast? =
        some ⟨("failed"), some m, none⟩ := by
  refine ⟨rfl, ?_, rfl⟩
  intro j hj
  simp only [process_pdf_task, List.mem_cons, List.not_mem_nil, or_false] at hj
  rcases hj with rfl | rfl | rfl | rfl <;> simp

/-- Witness for the amended C9 at a concrete non-empty exception text. -/
theorem c9_ocr_failure_amended_witness :
    (process_pdf_task (Except.error ("boom")) latexStageId chunkStageNil).getLast? =
      some ⟨("failed"), some ("boom"), none⟩
    ∧ (⟨("processing_ocr"), none, none⟩ : Job).status ≠ ("processing_chunks") := by
  have h := c9_ocr_failure_amended latexStageId chunkStageNil ("boom")
  refine ⟨h.2.2, ?_⟩
  exact h.2.1 ⟨("processing_ocr"), none, none⟩
    (by rw [h.1]; exact List.mem_cons_of_mem _ (List.mem_cons_self _ _))
